import Mathlib

/-!
Shallow embedding of the `Neo4jQueryBuilder` class from `src/query-builder.ts`
of the neo4j-helper repository, together with theorems checking the
specification's claims about it.

JavaScript data is modelled as follows: JS strings are Lean `String`s, the
`Record<string, unknown>` objects and the `Map` of registered aliases are
insertion-ordered association lists (`List (String × _)`), and property
values (TS `unknown`) are drawn from the value type `JSValue`.  JS `Map.set`
and object key assignment overwrite in place (keeping the first insertion
position) or append, which `mapSet` reproduces.  Methods that mutate `this`
become functions from the builder state to a result together with the new
state.
-/

/-- Property values (`unknown` in the TypeScript source). -/
inductive JSValue : Type where
  | int : Int → JSValue
  | str : String → JSValue
deriving DecidableEq

/-- A `Record<string, unknown>` in declaration order. -/
abbrev PropRecord : Type := List (String × JSValue)

namespace Neo4jQueryBuilder

/-- Key membership test on an association list (JS `Map.has`, or presence of
an object key). -/
def mapHas {A : Type} (m : List (String × A)) (k : String) : Bool :=
  m.any (fun p => p.1 == k)

/-- JS `Map.set` and object key assignment: overwrite in place keeping the
original insertion position when the key exists, otherwise append. -/
def mapSet {A : Type} (m : List (String × A)) (k : String) (v : A) :
    List (String × A) :=
  if mapHas m k then m.map (fun p => if p.1 == k then (k, v) else p)
  else m ++ [(k, v)]

/-- JS `String.prototype.startsWith`. -/
def jsStartsWith (s p : String) : Bool :=
  p.data.isPrefixOf s.data

/-- `const nodeVarIndex = 'abcdefghijklmnopqrstuvwxyz'.split('')`. -/
def nodeVarIndex : List Char :=
  "abcdefghijklmnopqrstuvwxyz".toList

/-- JS array indexing `nodeVarIndex[i]` as used in string concatenation:
an out-of-range access yields `undefined`, which JS coerces to the string
`"undefined"` when concatenated. -/
def nodeVarAt (i : Nat) : String :=
  match nodeVarIndex.get? i with
  | some c => String.mk [c]
  | none => "undefined"

/-- One-character test of the JS regex class `[a-zA-Z0-9]`. -/
def isQueryAlnum (c : Char) : Bool :=
  ('a' ≤ c && c ≤ 'z') || ('A' ≤ c && c ≤ 'Z') || ('0' ≤ c && c ≤ '9')

/-- `key.toString().replace(/[^a-zA-Z0-9]/g, '_')`: the global regex
replaces every non-alphanumeric character individually. -/
def sanitize (key : String) : String :=
  String.mk (key.data.map (fun c => if isQueryAlnum c then c else '_'))

/-- An entry of the `nodes` map: `\x7b nodeVar: string; label: string \x7d`. -/
structure NodeEntry : Type where
  nodeVar : String
  label : String
deriving DecidableEq

/-- The private fields of the `Neo4jQueryBuilder` class.  The source field
`return` is called `ret` here (`return` is not a legal Lean name). -/
structure BuilderState : Type where
  lastNodeVar : String
  lastNodeVarIndex : Nat
  nodes : List (String × NodeEntry)
  params : PropRecord
  query : List String
  ret : String
deriving DecidableEq

/-- A freshly constructed builder: `new Neo4jQueryBuilder()`. -/
def initState : BuilderState :=
  ⟨"", 0, [], [], [], ""⟩

/-- The result of `build()`: `\x7b query, params \x7d`. -/
structure QueryResult : Type where
  query : String
  params : PropRecord
deriving DecidableEq

/-- Body of the loop inside `generatePropertySelectors`: push one
`key: $paramKey` token and assign `params[paramKey] = value`. -/
def propStep (nodeVar : String) (acc : List String × PropRecord)
    (kv : String × JSValue) : List String × PropRecord :=
  let sanitizedKey := sanitize kv.1
  let paramKey := nodeVar ++ "_" ++ sanitizedKey
  (acc.1 ++ [kv.1 ++ ": $" ++ paramKey], mapSet acc.2 paramKey kv.2)

/-- `private generatePropertySelectors(nodeVar, record)`: returns the inline
parameterized string and the parameter entries for one property record. -/
def generatePropertySelectors (nodeVar : String) (record : PropRecord) :
    String × PropRecord :=
  if record.length == 0 then ("", [])
  else
    let res := record.foldl (propStep nodeVar) ([], [])
    (" \x7b" ++ String.intercalate ", " res.1 ++ "\x7d", res.2)

/-- `buildNodeReference(nodeVar, label = '', properties = \x7b\x7d)`:
`[nodeVar, label ? ':label' : '', parameterizedString].join('')`, merging the
generated parameters into `this.params` by object spread. -/
def buildNodeReference (st : BuilderState) (nodeVar label : String)
    (properties : PropRecord) : String × BuilderState :=
  let r := generatePropertySelectors nodeVar properties
  let st1 := { st with params := r.2.foldl (fun ps kv => mapSet ps kv.1 kv.2) st.params }
  (nodeVar ++ (if label != "" then ":" ++ label else "") ++ r.1, st1)

/-- `Array.from(this.nodes.keys()).filter((node) => node.startsWith(nodeVar))`. -/
def similarNodes (st : BuilderState) (nodeVar : String) : List String :=
  (st.nodes.map Prod.fst).filter (fun node => jsStartsWith node nodeVar)

/-- The effective base alias inside `generateNodeVar` before collision
resolution: auto-generated when the argument is missing or empty (the source
tests `if (!nodeVar)`, and the empty string is falsy), otherwise the
argument itself.  The source parameter is named `variable`, which is not a
legal Lean name; it is `varArg` here. -/
def genBase (st : BuilderState) (varArg : Option String) : String :=
  if varArg.getD "" == "" then st.lastNodeVar ++ nodeVarAt st.lastNodeVarIndex
  else varArg.getD ""

/-- The counter updates performed by `generateNodeVar` when it auto-generates
an alias: `this.lastNodeVarIndex++`, then on overflow reset the index to `0`
and extend the persistent prefix `this.lastNodeVar`. -/
def genAdvance (st : BuilderState) (varArg : Option String) : BuilderState :=
  if varArg.getD "" == "" then
    if st.lastNodeVarIndex + 1 > nodeVarIndex.length - 1 then
      { st with lastNodeVarIndex := 0,
                lastNodeVar := st.lastNodeVar ++ nodeVarAt 0 }
    else { st with lastNodeVarIndex := st.lastNodeVarIndex + 1 }
  else st

/-- `private generateNodeVar(variable?: string)`: auto-generate a base alias
when none (or an empty one) is supplied, advancing the counters; then, if the
base collides with a registered alias, suffix it with `_<n>` where `n` counts
the registered aliases starting with the base. -/
def generateNodeVar (st : BuilderState) (varArg : Option String) :
    String × BuilderState :=
  let nodeVar0 := genBase st varArg
  let st1 := genAdvance st varArg
  if mapHas st1.nodes nodeVar0 then
    (nodeVar0 ++ "_" ++ toString (similarNodes st1 nodeVar0).length, st1)
  else (nodeVar0, st1)

/-- `private getNodeVarOrGenerate(nodeVar?: string)`:
`nodeVar ?? this.generateNodeVar()` — the `??` operator only falls through on
`undefined`, so an explicit empty string is returned as-is. -/
def getNodeVarOrGenerate (st : BuilderState) (nodeVar : Option String) :
    String × BuilderState :=
  match nodeVar with
  | some v => (v, st)
  | none => generateNodeVar st none

/-- A `Partial<NodeSelector>`: optional label, alias and properties.  The
source field `variable` is called `varName` here. -/
structure NodeSelector : Type where
  label : Option String
  varName : Option String
  properties : Option PropRecord
deriving DecidableEq

/-- The source/target halves of `buildRelationshipReference` (lines 83-84 of
the source): resolve the alias, build the node reference, and wrap it in
parentheses. -/
def relNodePart (st : BuilderState) (sel : NodeSelector) :
    String × BuilderState :=
  let v := getNodeVarOrGenerate st sel.varName
  let r := buildNodeReference v.2 v.1 (sel.label.getD "") (sel.properties.getD [])
  ("(" ++ r.1 ++ ")", r.2)

/-- `buildRelationshipReference(source, target, direction = 'none',
attributes = \x7b\x7d)`.  Directions are modelled as the strings of the
TS union type `RelationshipDirections`; the `switch` has no default, so any
other string leaves the arrow empty. -/
def buildRelationshipReference (st : BuilderState)
    (source target : NodeSelector) (direction : String)
    (attributes : NodeSelector) : String × BuilderState :=
  let s := relNodePart st source
  let t := relNodePart s.2 target
  let rv := generateNodeVar t.2 attributes.varName
  let p :=
    if attributes.label.getD "" != "" || attributes.varName.getD "" != "" then
      let rr := buildNodeReference rv.2 rv.1 (attributes.label.getD "")
        (attributes.properties.getD [])
      ("[" ++ rr.1 ++ "]", rr.2)
    else ("", rv.2)
  let arrowDirection :=
    if direction == "from" then "-" ++ p.1 ++ "->"
    else if direction == "to" then "<-" ++ p.1 ++ "-"
    else if direction == "both" || direction == "none" then "-" ++ p.1 ++ "-"
    else ""
  let st3 :=
    if p.1 != "" then
      { p.2 with nodes := mapSet p.2.nodes rv.1 ⟨rv.1, attributes.label.getD ""⟩ }
    else p.2
  (s.1 ++ arrowDirection ++ t.1, st3)

/-- `select(label, nodeVar?, filter?)`: register the (possibly generated)
alias and append a `MATCH (<node-ref>)` clause. -/
def select (st : BuilderState) (label : String) (nodeVar : Option String)
    (filter : Option PropRecord) : BuilderState :=
  let g := generateNodeVar st nodeVar
  let st1 := { g.2 with nodes := mapSet g.2.nodes g.1 ⟨g.1, label⟩ }
  let r := buildNodeReference st1 g.1 label (filter.getD [])
  { r.2 with query := r.2.query ++ ["MATCH (" ++ r.1 ++ ")"] }

/-- `createNode(label, properties = \x7b\x7d, variable?)`: register the
(possibly generated) alias and append a `MERGE (<node-ref>)` clause. -/
def createNode (st : BuilderState) (label : String) (properties : PropRecord)
    (varArg : Option String) : BuilderState :=
  let g := generateNodeVar st varArg
  let st1 := { g.2 with nodes := mapSet g.2.nodes g.1 ⟨g.1, label⟩ }
  let r := buildNodeReference st1 g.1 label properties
  { r.2 with query := r.2.query ++ ["MERGE (" ++ r.1 ++ ")"] }

/-- `customReturn(...nodes)`: `this.return = 'RETURN ' + nodes.join(',')`. -/
def customReturn (st : BuilderState) (nodes : List String) : BuilderState :=
  { st with ret := "RETURN " ++ String.intercalate "," nodes }

/-- `join(sourceNode, targetNode, direction = 'none', attributes?)`: build a
relationship reference between the two aliases and append a `MATCH` clause. -/
def join (st : BuilderState) (sourceNode targetNode : String)
    (direction : String) (attributes : Option NodeSelector) : BuilderState :=
  let q := buildRelationshipReference st ⟨none, some sourceNode, none⟩
    ⟨none, some targetNode, none⟩ direction (attributes.getD ⟨none, none, none⟩)
  { q.2 with query := q.2.query ++ ["MATCH " ++ q.1] }

/-- `build()`: all committed clauses, space-joined, followed by the custom
return clause if set and otherwise `RETURN ` plus the registered aliases
joined with `', '`.  The source method only reads `this`, so the returned
state is the input state unchanged. -/
def build (st : BuilderState) : QueryResult × BuilderState :=
  let nodeKeys := st.nodes.map Prod.fst
  (⟨String.intercalate " "
      (st.query ++ [if st.ret != "" then st.ret
                    else "RETURN " ++ String.intercalate ", " nodeKeys]),
    st.params⟩, st)

/-- The empty selector `\x7b\x7d`. -/
def emptySelector : NodeSelector := ⟨none, none, none⟩

end Neo4jQueryBuilder

namespace Neo4jQueryBuilder

/-- C1: on a fresh builder, `select("Car","car",\x7bid:1\x7d)` followed by
`customReturn("car")` and `build()` yields exactly the query
`MATCH (car:Car \x7bid: $car_id\x7d) RETURN car` with parameters
`\x7bcar_id: 1\x7d`. -/
theorem select_customReturn_build_car :
    (build (customReturn
        (select initState "Car" (some "car") (some [("id", JSValue.int 1)]))
        ["car"])).1 =
      ⟨"MATCH (car:Car \x7bid: $car_id\x7d) RETURN car",
        [("car_id", JSValue.int 1)]⟩ := by
  decide

/-- C7: `build()` does not change the accumulated state, and calling it twice
with no mutation in between returns structurally equal results. -/
theorem build_idempotent (st : BuilderState) :
    (build st).2 = st ∧ (build (build st).2).1 = (build st).1 :=
  ⟨rfl, rfl⟩

/-- C9: `buildRelationshipReference(\x7b\x7d, \x7b\x7d, 'none', \x7b\x7d)` on
a fresh builder returns `(a)--(b)`, yet the unused relationship identifier
still consumed a value from the auto-generation counter: the next
auto-generated alias is `d`, not `c`. -/
theorem relationship_consumes_counter :
    (buildRelationshipReference initState emptySelector emptySelector "none"
        emptySelector).1 = "(a)--(b)"
    ∧ (generateNodeVar (buildRelationshipReference initState emptySelector
        emptySelector "none" emptySelector).2 none).1 = "d" := by
  decide

/-- C10: on a freshly constructed builder, `build()` returns the query
`RETURN ` (trailing space, empty alias list) and no parameters. -/
theorem build_fresh_builder :
    (build initState).1 = ⟨"RETURN ", []⟩ := by
  decide

theorem nodes_genAdvance (st : BuilderState) (varArg : Option String) :
    (genAdvance st varArg).nodes = st.nodes := by
  unfold genAdvance
  split
  · split <;> rfl
  · rfl

theorem snd_generateNodeVar (st : BuilderState) (varArg : Option String) :
    (generateNodeVar st varArg).2 = genAdvance st varArg := by
  unfold generateNodeVar
  dsimp only
  split <;> rfl

theorem nodes_generateNodeVar (st : BuilderState) (varArg : Option String) :
    ((generateNodeVar st varArg).2).nodes = st.nodes := by
  rw [snd_generateNodeVar, nodes_genAdvance]

theorem fst_generateNodeVar (st : BuilderState) (varArg : Option String) :
    (generateNodeVar st varArg).1 =
      if mapHas st.nodes (genBase st varArg) then
        genBase st varArg ++ "_"
          ++ toString (similarNodes st (genBase st varArg)).length
      else genBase st varArg := by
  unfold generateNodeVar
  dsimp only
  have hn : (genAdvance st varArg).nodes = st.nodes := nodes_genAdvance st varArg
  have hs : similarNodes (genAdvance st varArg) (genBase st varArg)
      = similarNodes st (genBase st varArg) := by
    unfold similarNodes
    rw [hn]
  rw [mapHas, hn, ← mapHas, hs]
  split <;> rfl

theorem mapHas_eq_true_iff {A : Type} (m : List (String × A)) (k : String) :
    mapHas m k = true ↔ k ∈ m.map Prod.fst := by
  simp [mapHas, List.any_eq_true, beq_iff_eq, List.mem_map]

theorem jsStartsWith_append (a b : String) :
    jsStartsWith (a ++ b) a = true := by
  simp only [jsStartsWith, String.data_append, List.isPrefixOf_iff_prefix]
  exact List.prefix_append a.data b.data

/-- C2 counterexample: with `car_2` and then `car` registered, requesting the
alias `car` makes the identifier generator return `car_2`, which is already a
key of the registered-alias mapping at the moment of return. -/
theorem alias_guarantee_counterexample :
    (generateNodeVar
        (select (select initState "A" (some "car_2") none) "B" (some "car") none)
        (some "car")).1 = "car_2"
    ∧ mapHas (select (select initState "A" (some "car_2") none) "B" (some "car")
        none).nodes "car_2" = true := by
  decide

/-- C2 amended: the alias returned by the identifier generator is not a key
of the registered-alias mapping at the moment it is returned, provided no
registered alias starts with the requested (or auto-generated) base alias
followed by an underscore. -/
theorem generateNodeVar_fresh (st : BuilderState) (varArg : Option String)
    (h : ∀ k ∈ st.nodes.map Prod.fst,
      jsStartsWith k (genBase st varArg ++ "_") = false) :
    mapHas st.nodes (generateNodeVar st varArg).1 = false := by
  rw [fst_generateNodeVar]
  by_cases hb : mapHas st.nodes (genBase st varArg) = true
  · rw [if_pos hb]
    by_contra hc
    have hmem : genBase st varArg ++ "_"
        ++ toString (similarNodes st (genBase st varArg)).length
        ∈ st.nodes.map Prod.fst := by
      rw [← mapHas_eq_true_iff]
      simpa using hc
    have hfalse := h _ hmem
    rw [jsStartsWith_append] at hfalse
    exact Bool.noConfusion hfalse
  · rw [if_neg hb]
    simpa using hb

/-- C2 witness: with only `car` registered, requesting `car` returns `car_1`,
which is not yet registered. -/
theorem generateNodeVar_fresh_witness :
    mapHas (select initState "Car" (some "car") none).nodes
      (generateNodeVar (select initState "Car" (some "car") none)
        (some "car")).1 = false :=
  generateNodeVar_fresh _ _ (by decide)

/-- C3 counterexample: after `select("Car","car")` and
`select("Property","prop")`, the default return clause produced by `build()`
is `RETURN car, prop` (the aliases are joined with a comma and a space), so
it is not exactly `RETURN car,prop` as the claim states. -/
theorem default_return_counterexample :
    (build (select (select initState "Car" (some "car") none) "Property"
        (some "prop") none)).1.query
      = "MATCH (car:Car) MATCH (prop:Property) RETURN car, prop"
    ∧ (build (select (select initState "Car" (some "car") none) "Property"
        (some "prop") none)).1.query
      ≠ "MATCH (car:Car) MATCH (prop:Property) RETURN car,prop" := by
  decide

/-- C3 amended: when no custom return clause has been set, `build()` ends the
query with a RETURN clause listing every registered alias in registration
order, joined with a comma and a space; in particular, after
`select("Car","car")` and `select("Property","prop")` the default return
clause is exactly `RETURN car, prop`. -/
theorem default_return_amended :
    (∀ st : BuilderState, st.ret = "" →
      (build st).1.query = String.intercalate " "
        (st.query ++ ["RETURN "
          ++ String.intercalate ", " (st.nodes.map Prod.fst)]))
    ∧ (build (select (select initState "Car" (some "car") none) "Property"
        (some "prop") none)).1.query
      = "MATCH (car:Car) MATCH (prop:Property) RETURN car, prop" := by
  constructor
  · intro st h
    simp [build, h]
  · decide

/-- C3 witness: the general default-return statement applied to a concrete
state with one registered alias. -/
theorem default_return_amended_witness :
    (build (select initState "Test" (some "t") none)).1.query =
      String.intercalate " " ((select initState "Test" (some "t") none).query
        ++ ["RETURN " ++ String.intercalate ", "
          ((select initState "Test" (some "t") none).nodes.map Prod.fst)]) :=
  default_return_amended.1 (select initState "Test" (some "t") none) rfl

theorem nodes_buildNodeReference (st : BuilderState) (nodeVar label : String)
    (properties : PropRecord) :
    ((buildNodeReference st nodeVar label properties).2).nodes = st.nodes :=
  rfl

theorem nodes_getNodeVarOrGenerate (st : BuilderState) (nodeVar : Option String) :
    ((getNodeVarOrGenerate st nodeVar).2).nodes = st.nodes := by
  cases nodeVar with
  | some v => rfl
  | none => exact nodes_generateNodeVar st none

theorem nodes_relNodePart (st : BuilderState) (sel : NodeSelector) :
    ((relNodePart st sel).2).nodes = st.nodes := by
  unfold relNodePart
  dsimp only
  rw [nodes_buildNodeReference, nodes_getNodeVarOrGenerate]

/-- The bare arrow forms actually emitted by the code when the relationship
has neither label nor alias, per direction (spec-side definition for the
amended claim). -/
def bareArrow (direction : String) : String :=
  if direction == "from" then "-->"
  else if direction == "to" then "<--"
  else "--"

/-- The selector `\x7b variable: 'car' \x7d`. -/
def carSelector : NodeSelector := ⟨none, some "car", none⟩

/-- The selector `\x7b variable: 'prop' \x7d`. -/
def propSelector : NodeSelector := ⟨none, some "prop", none⟩

/-- C5 counterexample: with direction `from` and no relationship label or
alias, the code emits `(car)-->(prop)`: the bare arrow is `-->`, which is
none of the claimed forms `--`, `->`, `<-`. -/
theorem bare_arrow_counterexample :
    (buildRelationshipReference initState carSelector propSelector "from"
        emptySelector).1 = "(car)-->(prop)"
    ∧ (buildRelationshipReference initState carSelector propSelector "from"
        emptySelector).1 ≠ "(car)--(prop)"
    ∧ (buildRelationshipReference initState carSelector propSelector "from"
        emptySelector).1 ≠ "(car)->(prop)"
    ∧ (buildRelationshipReference initState carSelector propSelector "from"
        emptySelector).1 ≠ "(car)<-(prop)" := by
  decide

/-- C5 amended: when the relationship attributes contain neither a label nor
an alias, the emitted pattern has no bracketed relationship segment: it is
the two node references joined by one of the bare arrows `--`, `-->` or
`<--` according to direction, and the registered-alias mapping is left
unchanged (no relationship alias is registered). -/
theorem bare_relationship_amended (st : BuilderState)
    (source target attributes : NodeSelector) (direction : String)
    (hl : attributes.label.getD "" = "") (hv : attributes.varName.getD "" = "")
    (hd : direction = "from" ∨ direction = "to" ∨ direction = "both"
      ∨ direction = "none") :
    (buildRelationshipReference st source target direction attributes).1 =
      (relNodePart st source).1 ++ bareArrow direction
        ++ (relNodePart (relNodePart st source).2 target).1
    ∧ ((buildRelationshipReference st source target direction attributes).2).nodes
      = st.nodes := by
  have hcond : (attributes.label.getD "" != ""
      || attributes.varName.getD "" != "") = false := by
    rw [hl, hv]
    rfl
  obtain rfl | rfl | rfl | rfl := hd <;>
    refine ⟨?_, ?_⟩ <;>
    simp [buildRelationshipReference, bareArrow, hcond, nodes_generateNodeVar,
      nodes_relNodePart]

/-- C5 witness: the amended statement at a concrete input. -/
theorem bare_relationship_amended_witness :
    (buildRelationshipReference initState carSelector propSelector "none"
        emptySelector).1 =
      (relNodePart initState carSelector).1 ++ bareArrow "none"
        ++ (relNodePart (relNodePart initState carSelector).2 propSelector).1
    ∧ ((buildRelationshipReference initState carSelector propSelector "none"
        emptySelector).2).nodes = initState.nodes :=
  bare_relationship_amended initState carSelector propSelector emptySelector
    "none" rfl rfl (Or.inr (Or.inr (Or.inr rfl)))

theorem mapHas_append {A : Type} (m m' : List (String × A)) (k : String) :
    mapHas (m ++ m') k = (mapHas m k || mapHas m' k) := by
  simp [mapHas, List.any_append]

theorem mapSet_of_not_has {A : Type} (m : List (String × A)) (k : String)
    (v : A) (h : mapHas m k = false) : mapSet m k v = m ++ [(k, v)] := by
  rw [mapSet, h]
  rfl

/-- The parameter key generated for a record entry: `<alias>_<sanitizedKey>`. -/
def paramKeyOf (nodeVar : String) (kv : String × JSValue) : String :=
  nodeVar ++ "_" ++ sanitize kv.1

theorem propStep_foldl_fst (nodeVar : String) (record : PropRecord) :
    ∀ acc : List String × PropRecord,
      (record.foldl (propStep nodeVar) acc).1 =
        acc.1 ++ record.map (fun kv => kv.1 ++ ": $" ++ paramKeyOf nodeVar kv) := by
  induction record with
  | nil =>
      intro acc
      simp
  | cons kv rest ih =>
      intro acc
      rw [List.foldl_cons, ih]
      simp [propStep, paramKeyOf]

theorem propStep_foldl_snd (nodeVar : String) (record : PropRecord) :
    ∀ acc : List String × PropRecord,
      (record.map (paramKeyOf nodeVar)).Nodup →
      (∀ kv ∈ record, mapHas acc.2 (paramKeyOf nodeVar kv) = false) →
      (record.foldl (propStep nodeVar) acc).2 =
        acc.2 ++ record.map (fun kv => (paramKeyOf nodeVar kv, kv.2)) := by
  induction record with
  | nil =>
      intro acc _ _
      simp
  | cons kv rest ih =>
      intro acc hnd hdisj
      rw [List.foldl_cons]
      have h1 : mapHas acc.2 (paramKeyOf nodeVar kv) = false :=
        hdisj kv (List.mem_cons_self kv rest)
      have hstep : (propStep nodeVar acc kv).2
          = acc.2 ++ [(paramKeyOf nodeVar kv, kv.2)] := by
        simp [propStep, paramKeyOf] at h1 ⊢
        exact mapSet_of_not_has _ _ _ h1
      have hk : paramKeyOf nodeVar kv ∉ rest.map (paramKeyOf nodeVar) := by
        have := hnd
        rw [List.map_cons, List.nodup_cons] at this
        exact this.1
      have hdisj' : ∀ kv' ∈ rest,
          mapHas (propStep nodeVar acc kv).2 (paramKeyOf nodeVar kv') = false := by
        intro kv' hkv'
        rw [hstep, mapHas_append]
        have ha : mapHas acc.2 (paramKeyOf nodeVar kv') = false :=
          hdisj kv' (List.mem_cons_of_mem kv hkv')
        have hb : mapHas [(paramKeyOf nodeVar kv, kv.2)]
            (paramKeyOf nodeVar kv') = false := by
          simp only [mapHas, List.any_cons, List.any_nil, Bool.or_false]
          rw [beq_eq_false_iff_ne]
          intro he
          exact hk (he ▸ List.mem_map_of_mem (paramKeyOf nodeVar) hkv')
        rw [ha, hb]
        rfl
      rw [ih (propStep nodeVar acc kv)
        ((List.nodup_cons.mp (by simpa using hnd)).2) hdisj', hstep]
      simp

/-- JS `Map.get` / object key read on the association list model. -/
def mapGet {A : Type} (m : List (String × A)) (k : String) : Option A :=
  (m.find? (fun p => p.1 == k)).map Prod.snd

theorem mapHas_keys {A : Type} (m : List (String × A)) (k : String) :
    mapHas m k = (m.map Prod.fst).any (fun s => s == k) := by
  induction m with
  | nil => rfl
  | cons p rest ih =>
      rw [mapHas, List.any_cons, List.map_cons, List.any_cons, ← ih]
      rfl

theorem findCons {A : Type} (p : A → Bool) (a : A) (l : List A) :
    (a :: l).find? p = if p a then some a else l.find? p := by
  by_cases h : p a = true
  · rw [if_pos h]
    exact List.find?_cons_of_pos _ h
  · rw [if_neg h]
    exact List.find?_cons_of_neg _ h

theorem keys_mapSet {A : Type} (m : List (String × A)) (k : String) (v : A) :
    (mapSet m k v).map Prod.fst =
      if mapHas m k then m.map Prod.fst else m.map Prod.fst ++ [k] := by
  unfold mapSet
  split
  · rw [List.map_map]
    refine List.map_congr_left ?_
    intro p _
    show (if p.1 == k then (k, v) else p).1 = p.1
    by_cases hp : (p.1 == k) = true
    · rw [if_pos hp]
      exact (beq_iff_eq.mp hp).symm
    · rw [if_neg hp]
  · simp

theorem nodup_keys_mapSet {A : Type} (m : List (String × A)) (k : String)
    (v : A) (h : (m.map Prod.fst).Nodup) :
    ((mapSet m k v).map Prod.fst).Nodup := by
  by_cases hk : mapHas m k = true
  · rw [keys_mapSet, if_pos hk]
    exact h
  · rw [keys_mapSet, if_neg hk]
    have hkn : k ∉ m.map Prod.fst := fun hmem =>
      hk ((mapHas_eq_true_iff m k).mpr hmem)
    simp [List.nodup_append, h, hkn]

theorem mapHas_mapSet {A : Type} (m : List (String × A)) (k k' : String)
    (v : A) : mapHas (mapSet m k v) k' = (mapHas m k' || (k == k')) := by
  by_cases hk : mapHas m k = true
  · rw [mapHas_keys, keys_mapSet, if_pos hk, ← mapHas_keys]
    by_cases he : k = k'
    · subst he
      rw [hk]
      simp
    · rw [(show (k == k') = false by simpa using he)]
      simp
  · rw [mapHas_keys, keys_mapSet, if_neg hk, List.any_append, ← mapHas_keys]
    simp

theorem findOverwriteSelf {A : Type} : ∀ (m : List (String × A)) (k : String)
    (v : A), mapHas m k = true →
    (m.map (fun p => if p.1 == k then (k, v) else p)).find? (fun p => p.1 == k)
      = some (k, v) := by
  intro m
  induction m with
  | nil =>
      intro k v h
      simp [mapHas] at h
  | cons p rest ih =>
      intro k v h
      rw [List.map_cons]
      by_cases hp : (p.1 == k) = true
      · rw [if_pos hp, findCons]
        simp
      · rw [if_neg hp, findCons, if_neg hp]
        refine ih k v ?_
        rw [mapHas, List.any_cons,
          (show (p.1 == k) = false by simpa using hp), Bool.false_or] at h
        exact h

theorem findAppendSelf {A : Type} : ∀ (m : List (String × A)) (k : String)
    (v : A), mapHas m k = false →
    (m ++ [(k, v)]).find? (fun p => p.1 == k) = some (k, v) := by
  intro m
  induction m with
  | nil =>
      intro k v _
      rw [List.nil_append, findCons]
      simp
  | cons p rest ih =>
      intro k v h
      rw [mapHas, List.any_cons] at h
      have h1 : (p.1 == k) = false := by
        cases hpk : (p.1 == k)
        · rfl
        · rw [hpk, Bool.true_or] at h
          exact absurd h (by simp)
      have h2 : mapHas rest k = false := by
        rw [h1, Bool.false_or] at h
        exact h
      rw [List.cons_append, findCons, if_neg (by simp [h1])]
      exact ih k v h2

theorem mapGet_mapSet_self {A : Type} (m : List (String × A)) (k : String)
    (v : A) : mapGet (mapSet m k v) k = some v := by
  unfold mapSet
  by_cases hk : mapHas m k = true
  · rw [if_pos hk]
    unfold mapGet
    rw [findOverwriteSelf m k v hk]
    rfl
  · rw [if_neg hk]
    unfold mapGet
    rw [findAppendSelf m k v (by simpa using hk)]
    rfl

theorem findMapNe {A : Type} : ∀ (m : List (String × A)) (k k' : String)
    (v : A), k ≠ k' →
    (m.map (fun p => if p.1 == k then (k, v) else p)).find? (fun p => p.1 == k')
      = m.find? (fun p => p.1 == k') := by
  intro m
  induction m with
  | nil =>
      intro k k' v _
      rfl
  | cons p rest ih =>
      intro k k' v hne
      rw [List.map_cons]
      by_cases hp : (p.1 == k) = true
      · rw [if_pos hp]
        have hp1 : p.1 = k := beq_iff_eq.mp hp
        rw [findCons, findCons, if_neg (by simpa using hne),
          if_neg (show ¬ ((p.1 == k') = true) by simpa [hp1] using hne)]
        exact ih k k' v hne
      · rw [if_neg hp, findCons, findCons]
        by_cases hq : (p.1 == k') = true
        · rw [if_pos hq, if_pos hq]
        · rw [if_neg hq, if_neg hq]
          exact ih k k' v hne

theorem findAppendNe {A : Type} : ∀ (m : List (String × A)) (k k' : String)
    (v : A), k ≠ k' →
    (m ++ [(k, v)]).find? (fun p => p.1 == k') = m.find? (fun p => p.1 == k') := by
  intro m
  induction m with
  | nil =>
      intro k k' v hne
      rw [List.nil_append, findCons, if_neg (by simpa using hne)]
  | cons p rest ih =>
      intro k k' v hne
      rw [List.cons_append, findCons, findCons]
      by_cases hq : (p.1 == k') = true
      · rw [if_pos hq, if_pos hq]
      · rw [if_neg hq, if_neg hq]
        exact ih k k' v hne

theorem mapGet_mapSet_ne {A : Type} (m : List (String × A)) (k k' : String)
    (v : A) (hne : k ≠ k') : mapGet (mapSet m k v) k' = mapGet m k' := by
  unfold mapSet
  by_cases hk : mapHas m k = true
  · rw [if_pos hk]
    unfold mapGet
    rw [findMapNe m k k' v hne]
  · rw [if_neg hk]
    unfold mapGet
    rw [findAppendNe m k k' v hne]

theorem snd_propStep_foldl (nodeVar : String) : ∀ (record : PropRecord)
    (acc : List String × PropRecord),
    (record.foldl (propStep nodeVar) acc).2 =
      record.foldl (fun ps kv => mapSet ps (paramKeyOf nodeVar kv) kv.2) acc.2 := by
  intro record
  induction record with
  | nil =>
      intro acc
      rfl
  | cons kv rest ih =>
      intro acc
      rw [List.foldl_cons, List.foldl_cons, ih]
      rfl

theorem nodup_keys_foldl_mapSet (nodeVar : String) : ∀ (record : PropRecord)
    (m : PropRecord), (m.map Prod.fst).Nodup →
    ((record.foldl (fun ps kv => mapSet ps (paramKeyOf nodeVar kv) kv.2)
      m).map Prod.fst).Nodup := by
  intro record
  induction record with
  | nil =>
      intro m hm
      simpa using hm
  | cons kv rest ih =>
      intro m hm
      rw [List.foldl_cons]
      exact ih _ (nodup_keys_mapSet _ _ _ hm)

theorem mapHas_foldl_mapSet (nodeVar : String) : ∀ (record : PropRecord)
    (m : PropRecord) (k : String),
    mapHas (record.foldl (fun ps kv => mapSet ps (paramKeyOf nodeVar kv) kv.2) m) k
      = (mapHas m k || record.any (fun kv => paramKeyOf nodeVar kv == k)) := by
  intro record
  induction record with
  | nil =>
      intro m k
      simp
  | cons kv rest ih =>
      intro m k
      rw [List.foldl_cons, ih, mapHas_mapSet, List.any_cons, Bool.or_assoc]

theorem mapGet_foldl_mapSet (nodeVar : String) : ∀ (record : PropRecord)
    (m : PropRecord) (k : String),
    mapGet (record.foldl (fun ps kv => mapSet ps (paramKeyOf nodeVar kv) kv.2) m) k
      = if record.any (fun kv => paramKeyOf nodeVar kv == k) then
          (record.reverse.find? (fun kv => paramKeyOf nodeVar kv == k)).map
            Prod.snd
        else mapGet m k := by
  intro record
  induction record using List.list_reverse_induction with
  | base =>
      intro m k
      simp
  | ind l kv ih =>
      intro m k
      rw [List.foldl_append, List.foldl_cons, List.foldl_nil]
      by_cases hp : (paramKeyOf nodeVar kv == k) = true
      · have hk : paramKeyOf nodeVar kv = k := beq_iff_eq.mp hp
        rw [hk, mapGet_mapSet_self]
        rw [List.reverse_append, List.reverse_singleton, List.singleton_append,
          findCons, if_pos hp]
        have hany : (l ++ [kv]).any (fun kv => paramKeyOf nodeVar kv == k)
            = true := by
          rw [List.any_append]
          simp [hp]
        rw [if_pos hany]
        rfl
      · have hne : paramKeyOf nodeVar kv ≠ k := by simpa using hp
        rw [mapGet_mapSet_ne _ _ _ _ hne, ih m k]
        rw [List.reverse_append, List.reverse_singleton, List.singleton_append,
          findCons, if_neg hp]
        have hany : (l ++ [kv]).any (fun kv => paramKeyOf nodeVar kv == k)
            = l.any (fun kv => paramKeyOf nodeVar kv == k) := by
          rw [List.any_append]
          simp [(show (paramKeyOf nodeVar kv == k) = false by simpa using hp)]
        rw [hany]

/-- C4 counterexample: for the alias `x` and the two-key mapping
`\x7b'a.b': 1, 'a-b': 2\x7d`, both keys sanitize to `a_b`, so only one
parameter entry is registered (the later value overwrites the earlier one)
while the claim demands exactly two. -/
theorem property_selectors_counterexample :
    ((generatePropertySelectors "x"
        [("a.b", JSValue.int 1), ("a-b", JSValue.int 2)]).2)
      = [("x_a_b", JSValue.int 2)]
    ∧ ((generatePropertySelectors "x"
        [("a.b", JSValue.int 1), ("a-b", JSValue.int 2)]).2).length
      ≠ ([("a.b", JSValue.int 1), ("a-b", JSValue.int 2)] : PropRecord).length := by
  decide

/-- C4 amended: for every alias and property mapping, an empty mapping gives
the empty inline token and no parameters.  For every non-empty mapping,
unconditionally, the inline token has exactly one
`propertyName: $parameterKey` entry per mapping key in iteration order; when
the derived parameter keys `<alias>_<sanitizedKey>` are pairwise distinct,
exactly that many parameter entries are registered, one per mapping key under
its derived key; and in general (collisions included) later entries overwrite
earlier ones sanitizing to the same key: the registered parameter keys are
pairwise distinct, a key is registered exactly when some mapping entry
derives it, and the value stored under each key is the value of the last
mapping entry deriving it. -/
theorem property_selectors_amended (nodeVar : String) (record : PropRecord) :
    (record = [] → generatePropertySelectors nodeVar record = ("", []))
    ∧ (record ≠ [] →
        (generatePropertySelectors nodeVar record).1 =
          " \x7b" ++ String.intercalate ", "
            (record.map (fun kv => kv.1 ++ ": $" ++ paramKeyOf nodeVar kv))
          ++ "\x7d"
        ∧ ((record.map (paramKeyOf nodeVar)).Nodup →
            (generatePropertySelectors nodeVar record).2 =
              record.map (fun kv => (paramKeyOf nodeVar kv, kv.2)))
        ∧ (((generatePropertySelectors nodeVar record).2.map Prod.fst).Nodup)
        ∧ (∀ k, mapHas (generatePropertySelectors nodeVar record).2 k = true
            ↔ k ∈ record.map (paramKeyOf nodeVar))
        ∧ (∀ k, mapGet (generatePropertySelectors nodeVar record).2 k
            = (record.reverse.find?
                (fun kv => paramKeyOf nodeVar kv == k)).map Prod.snd)) := by
  constructor
  · intro h
    rw [h]
    rfl
  · intro h
    have hlen : (record.length == 0) = false := by
      simp [List.length_eq_zero, h]
    have hcond : ¬ ((record.length == 0) = true) := by
      rw [hlen]
      simp
    have hq1 : (generatePropertySelectors nodeVar record).1
        = " \x7b" ++ String.intercalate ", "
            (record.foldl (propStep nodeVar) ([], [])).1 ++ "\x7d" := by
      rw [generatePropertySelectors, if_neg hcond]
    have hq2 : (generatePropertySelectors nodeVar record).2
        = (record.foldl (propStep nodeVar) ([], [])).2 := by
      rw [generatePropertySelectors, if_neg hcond]
    refine ⟨?_, ?_, ?_, ?_, ?_⟩
    · rw [hq1, propStep_foldl_fst]
      simp
    · intro hnd
      rw [hq2, propStep_foldl_snd nodeVar record ([], []) hnd
        (fun kv _ => rfl)]
      simp
    · rw [hq2, snd_propStep_foldl]
      exact nodup_keys_foldl_mapSet nodeVar record ([], []).2 (by simp)
    · intro k
      rw [hq2, snd_propStep_foldl, mapHas_foldl_mapSet]
      simp [mapHas, List.any_eq_true, beq_iff_eq, List.mem_map]
    · intro k
      rw [hq2, snd_propStep_foldl, mapGet_foldl_mapSet]
      by_cases ha : record.any (fun kv => paramKeyOf nodeVar kv == k) = true
      · rw [if_pos ha]
      · rw [if_neg ha]
        have hnone : record.reverse.find?
            (fun kv => paramKeyOf nodeVar kv == k) = none := by
          rw [List.find?_eq_none]
          intro kv hkv hpkv
          exact ha (List.any_eq_true.mpr
            ⟨kv, List.mem_reverse.mp hkv, hpkv⟩)
        rw [hnone]
        rfl

/-- C4 witness: the amended statement evaluated on the colliding two-key
mapping `\x7b'a.b': 1, 'a-b': 2\x7d` for the alias `x` (both keys derive
`x_a_b`: the token lists both entries, the stored value is the later one) and
on the collision-free mapping `\x7bid: 1\x7d` for the alias `car`. -/
theorem property_selectors_amended_witness :
    (generatePropertySelectors "x"
        [("a.b", JSValue.int 1), ("a-b", JSValue.int 2)]).1
      = " \x7ba.b: $x_a_b, a-b: $x_a_b\x7d"
    ∧ mapGet (generatePropertySelectors "x"
        [("a.b", JSValue.int 1), ("a-b", JSValue.int 2)]).2 "x_a_b"
      = some (JSValue.int 2)
    ∧ (generatePropertySelectors "car" [("id", JSValue.int 1)]).2
      = [("car_id", JSValue.int 1)] := by
  have h1 := (property_selectors_amended "x"
    [("a.b", JSValue.int 1), ("a-b", JSValue.int 2)]).2 (by decide)
  have h2 := (property_selectors_amended "car" [("id", JSValue.int 1)]).2
    (by decide)
  refine ⟨?_, ?_, ?_⟩
  · rw [h1.1]
    decide
  · rw [h1.2.2.2.2 "x_a_b"]
    decide
  · rw [h2.2.1 (by decide)]
    decide

/-- The stream of aliases produced by `n` consecutive auto-generation calls
(`generateNodeVar` with no argument) on one builder instance. -/
def genStream : Nat → BuilderState → List String
  | 0, _ => []
  | n + 1, st =>
      (generateNodeVar st none).1 :: genStream n (generateNodeVar st none).2

/-- The alias produced by the `n`-th auto-generation call on a fresh builder:
`n / 26` copies of `'a'` followed by the `(n % 26)`-th alphabet letter. -/
def autoVar (n : Nat) : String :=
  String.mk (List.replicate (n / 26) 'a') ++ nodeVarAt (n % 26)

/-- The builder state after `n` auto-generation calls on a fresh builder. -/
def autoState (n : Nat) : BuilderState :=
  ⟨String.mk (List.replicate (n / 26) 'a'), n % 26, [], [], [], ""⟩

theorem string_mk_append (l l' : List Char) :
    String.mk l ++ String.mk l' = String.mk (l ++ l') :=
  rfl

theorem string_data_mk (l : List Char) : (String.mk l).data = l :=
  rfl

theorem nodeVarIndex_length : nodeVarIndex.length = 26 := by
  decide

theorem genAdvance_autoState (n : Nat) :
    genAdvance (autoState n) none = autoState (n + 1) := by
  have hshow : genAdvance (autoState n) none =
      if n % 26 + 1 > nodeVarIndex.length - 1 then
        (⟨String.mk (List.replicate (n / 26) 'a') ++ nodeVarAt 0, 0,
          [], [], [], ""⟩ : BuilderState)
      else ⟨String.mk (List.replicate (n / 26) 'a'), n % 26 + 1,
        [], [], [], ""⟩ := rfl
  rw [hshow, nodeVarIndex_length]
  by_cases h : n % 26 = 25
  · have hdiv : (n + 1) / 26 = n / 26 + 1 := by omega
    have hmod : (n + 1) % 26 = 0 := by omega
    have h1 : String.mk (List.replicate (n / 26) 'a') ++ nodeVarAt 0
        = String.mk (List.replicate ((n + 1) / 26) 'a') := by
      rw [hdiv, List.replicate_succ' (n / 26) 'a',
        show nodeVarAt 0 = String.mk ['a'] from rfl, string_mk_append]
    rw [if_pos (by omega)]
    unfold autoState
    rw [h1, hmod]
  · have hdiv : (n + 1) / 26 = n / 26 := by omega
    have hmod : (n + 1) % 26 = n % 26 + 1 := by omega
    rw [if_neg (by omega)]
    unfold autoState
    rw [hdiv, hmod]

theorem generateNodeVar_autoState (n : Nat) :
    generateNodeVar (autoState n) none = (autoVar n, autoState (n + 1)) := by
  have hbase : genBase (autoState n) none = autoVar n := rfl
  have hadv := genAdvance_autoState n
  have hnone : mapHas (autoState (n + 1)).nodes (autoVar n) = false := rfl
  unfold generateNodeVar
  dsimp only
  rw [hbase, hadv, hnone]
  simp

theorem genStream_autoState : ∀ (n k : Nat),
    genStream n (autoState k) = (List.range n).map (fun i => autoVar (k + i)) := by
  intro n
  induction n with
  | zero =>
      intro k
      rfl
  | succ m ih =>
      intro k
      simp only [genStream, generateNodeVar_autoState]
      rw [ih (k + 1), List.range_succ_eq_map, List.map_cons, List.map_map]
      have hfe : ((fun i => autoVar (k + i)) ∘ Nat.succ)
          = fun i => autoVar (k + 1 + i) := by
        funext i
        show autoVar (k + (i + 1)) = autoVar (k + 1 + i)
        congr 1
        omega
      simp [hfe]

theorem nodeVarAt_data_length : ∀ r, r < 26 → (nodeVarAt r).data.length = 1 := by
  decide

theorem nodeVarAt_inj : ∀ a, a < 26 → ∀ b, b < 26 →
    (nodeVarAt a).data = (nodeVarAt b).data → a = b := by
  decide

theorem autoVar_injective : Function.Injective autoVar := by
  intro i j h
  have hd : (autoVar i).data = (autoVar j).data := congrArg String.data h
  rw [autoVar, autoVar, String.data_append, String.data_append,
    string_data_mk, string_data_mk] at hd
  have hi : (nodeVarAt (i % 26)).data.length = 1 :=
    nodeVarAt_data_length _ (Nat.mod_lt _ (by omega))
  have hj : (nodeVarAt (j % 26)).data.length = 1 :=
    nodeVarAt_data_length _ (Nat.mod_lt _ (by omega))
  have hlen : i / 26 = j / 26 := by
    have hl := congrArg List.length hd
    rw [List.length_append, List.length_append, List.length_replicate,
      List.length_replicate, hi, hj] at hl
    omega
  have htail : (nodeVarAt (i % 26)).data = (nodeVarAt (j % 26)).data :=
    (List.append_inj hd (by rw [List.length_replicate, List.length_replicate,
      hlen])).2
  have hmod : i % 26 = j % 26 :=
    nodeVarAt_inj _ (Nat.mod_lt _ (by omega)) _ (Nat.mod_lt _ (by omega)) htail
  omega

/-- C6: on a fresh builder with no caller-supplied aliases, 702 consecutive
calls of the identifier generator produce pairwise distinct aliases. -/
theorem autogen_aliases_distinct : (genStream 702 initState).Nodup := by
  have h0 : initState = autoState 0 := rfl
  rw [h0, genStream_autoState]
  simp only [Nat.zero_add]
  exact (List.nodup_range 702).map autoVar_injective

/-- C8: every public builder operation (`select`, `createNode`, `join`,
`buildNodeReference`, `buildRelationshipReference`, `customReturn`, `build`)
is a total function of the documented input shapes: every call on arbitrary
such inputs evaluates to a result.  In this embedding totality holds by
construction, because no primitive the source uses can throw: the only
partial-looking JS operations, array indexing past the end and the property
record defaulting, are modelled with their actual non-throwing JS semantics
(`nodeVarAt`, `Option.getD`). -/
theorem builder_operations_total :
    ∀ (st : BuilderState) (label direction sourceNode targetNode nv : String)
      (nodeVar : Option String) (filter : Option PropRecord)
      (properties : PropRecord) (source target attributes : NodeSelector)
      (attrs : Option NodeSelector) (rets : List String),
      (∃ r, select st label nodeVar filter = r)
      ∧ (∃ r, createNode st label properties nodeVar = r)
      ∧ (∃ r, join st sourceNode targetNode direction attrs = r)
      ∧ (∃ r, buildNodeReference st nv label properties = r)
      ∧ (∃ r, buildRelationshipReference st source target direction attributes = r)
      ∧ (∃ r, customReturn st rets = r)
      ∧ (∃ r, build st = r) :=
  fun _ _ _ _ _ _ _ _ _ _ _ _ _ _ =>
    ⟨⟨_, rfl⟩, ⟨_, rfl⟩, ⟨_, rfl⟩, ⟨_, rfl⟩, ⟨_, rfl⟩, ⟨_, rfl⟩, ⟨_, rfl⟩⟩

/-- C7 witness: the idempotence statement at the fresh builder. -/
theorem build_idempotent_witness :
    (build initState).2 = initState
    ∧ (build (build initState).2).1 = (build initState).1 :=
  build_idempotent initState

/-- C8 witness: the totality statement at concrete inputs. -/
theorem builder_operations_total_witness :
    (∃ r, select initState "Car" (some "car") none = r)
    ∧ (∃ r, createNode initState "Car" [] (some "car") = r)
    ∧ (∃ r, join initState "car" "prop" "from" none = r)
    ∧ (∃ r, buildNodeReference initState "car" "Car" [] = r)
    ∧ (∃ r, buildRelationshipReference initState emptySelector emptySelector
        "from" emptySelector = r)
    ∧ (∃ r, customReturn initState ["car"] = r)
    ∧ (∃ r, build initState = r) :=
  builder_operations_total initState "Car" "from" "car" "prop" "car"
    (some "car") none [] emptySelector emptySelector emptySelector none ["car"]

end Neo4jQueryBuilder
